import Mathlib

/-!
Shallow embedding of `src/lesson8_ht1.py`, a command-line contact manager.

The Python classes `Field`, `Name`, `Phone`, `Birthday`, `Record`,
`AddressBook`, the persistence functions `save_data` / `load_data`, and
one iteration of the command loop in `main` are translated below.
Python exceptions are modelled with `Except String` (the message is the
exception text), in-place mutation with explicit state passing, and the
pickle byte stream with `List Nat`.
-/

/-! ## Calendar arithmetic (CPython `datetime` rules) -/

/-- Gregorian leap-year rule, as used by Python `datetime`. -/
def isLeap (y : Nat) : Bool :=
  y % 4 == 0 && (y % 100 != 0 || y % 400 == 0)

/-- Days in a month, as used by Python `datetime` (`_days_in_month`). -/
def daysInMonth (y m : Nat) : Nat :=
  match m with
  | 1 => 31
  | 2 => if isLeap y then 29 else 28
  | 3 => 31
  | 4 => 30
  | 5 => 31
  | 6 => 30
  | 7 => 31
  | 8 => 31
  | 9 => 30
  | 10 => 31
  | 11 => 30
  | 12 => 31
  | _ => 0

/-- Days in the months strictly before month `m` of year `y`. -/
def daysBeforeMonth (y m : Nat) : Nat :=
  ((List.range (m - 1)).map (fun i => daysInMonth y (i + 1))).sum

/-- Days before January 1 of year `y` (CPython `_days_before_year`). -/
def daysBeforeYear (y : Nat) : Nat :=
  365 * (y - 1) + (y - 1) / 4 - (y - 1) / 100 + (y - 1) / 400

/-- Proleptic Gregorian ordinal of a date (CPython `date.toordinal`). -/
def toOrdinal (y m d : Nat) : Nat :=
  daysBeforeYear y + daysBeforeMonth y m + d

/-- The date stored inside a `Birthday` value (Python `datetime` at midnight). -/
structure Date where
  day : Nat
  month : Nat
  year : Nat
deriving DecidableEq, Repr

/-- The constraints Python `datetime(year, month, day)` enforces. -/
def ValidDate (dt : Date) : Prop :=
  1 ≤ dt.year ∧ dt.year ≤ 9999 ∧ 1 ≤ dt.month ∧ dt.month ≤ 12 ∧
    1 ≤ dt.day ∧ dt.day ≤ daysInMonth dt.year dt.month

instance (dt : Date) : Decidable (ValidDate dt) := by
  unfold ValidDate; infer_instance

/-- A `datetime` value: a calendar date plus seconds elapsed since midnight.
`datetime.today()` produces one with the wall-clock time in `sec`. -/
structure DateTime where
  year : Nat
  month : Nat
  day : Nat
  sec : Nat
deriving DecidableEq, Repr

/-- Total seconds of a `datetime`; Python datetime comparison agrees with
comparison of these numbers on valid dates. -/
def DateTime.toSec (t : DateTime) : Nat :=
  toOrdinal t.year t.month t.day * 86400 + t.sec

/-! ## Phone (`Phone.__init__`) -/

/-- The check `len(phone_number) == 10 and phone_number.isdigit()` from `Phone.__init__`
(ASCII reading of `str.isdigit`). -/
def isValidPhone (s : String) : Bool :=
  s.length == 10 && s.data.all Char.isDigit

/-- A constructed `Phone` object: its `value` string with the construction
invariant. -/
abbrev Phone := { s : String // isValidPhone s = true }

/-- Python `Phone.__init__`: raise `ValueError` unless the string is 10 digits. -/
def mkPhone (s : String) : Except String Phone :=
  if h : isValidPhone s = true then .ok ⟨s, h⟩
  else .error "Phone number must be 10 digits."

/-! ## Birthday (`Birthday.__init__`, `strptime` with format `%d.%m.%Y`) -/

/-- Numeric value of a digit string (how `strptime` reads matched groups). -/
def natOfDigits (cs : List Char) : Nat :=
  cs.foldl (fun a c => a * 10 + (c.toNat - 48)) 0

/-- All characters are ASCII digits. -/
def allDigits (cs : List Char) : Bool :=
  cs.all Char.isDigit

/-- Split a character list at every dot, keeping empty chunks: models how
the `strptime` pattern divides `%d.%m.%Y` input at the literal dots. -/
def splitDots : List Char → List (List Char)
  | [] => [[]]
  | c :: rest =>
    if c = '.' then [] :: splitDots rest
    else
      match splitDots rest with
      | [] => [[c]]
      | t :: ts => (c :: t) :: ts

/-- The day group of the `strptime` pattern: one or two digits, value 1-31
(the regex `3[01]|[12]\d|0[1-9]|[1-9]`). -/
def dayTokVal (cs : List Char) : Option Nat :=
  if allDigits cs ∧ (cs.length = 1 ∨ cs.length = 2) ∧
      1 ≤ natOfDigits cs ∧ natOfDigits cs ≤ 31 then
    some (natOfDigits cs)
  else none

/-- The month group: one or two digits, value 1-12. -/
def monthTokVal (cs : List Char) : Option Nat :=
  if allDigits cs ∧ (cs.length = 1 ∨ cs.length = 2) ∧
      1 ≤ natOfDigits cs ∧ natOfDigits cs ≤ 12 then
    some (natOfDigits cs)
  else none

/-- The year group `%Y`: exactly four digits. -/
def yearTokVal (cs : List Char) : Option Nat :=
  if allDigits cs ∧ cs.length = 4 then some (natOfDigits cs) else none

/-- A constructed `Birthday` value: the stored parsed date. -/
abbrev BDate := { dt : Date // ValidDate dt }

/-- Python `Birthday.__init__`: `datetime.strptime(value, "%d.%m.%Y")`, with every
failure (pattern mismatch or impossible calendar date) replaced by the
fixed `ValueError` message. -/
def parseBirthday (s : String) : Except String BDate :=
  match splitDots s.data with
  | [ds, ms, ys] =>
    match dayTokVal ds, monthTokVal ms, yearTokVal ys with
    | some d, some m, some y =>
      if h : ValidDate ⟨d, m, y⟩ then .ok ⟨⟨d, m, y⟩, h⟩
      else .error "Invalid date format. Use DD.MM.YYYY"
    | _, _, _ => .error "Invalid date format. Use DD.MM.YYYY"
  | _ => .error "Invalid date format. Use DD.MM.YYYY"

/-- Two-digit zero-padded rendering (`%d` and `%m` of `strftime`). -/
def pad2 (n : Nat) : List Char :=
  [Nat.digitChar (n / 10), Nat.digitChar (n % 10)]

/-- Four-digit zero-padded rendering (`%Y` of `strftime`). -/
def pad4 (n : Nat) : List Char :=
  [Nat.digitChar (n / 1000), Nat.digitChar (n / 100 % 10),
   Nat.digitChar (n / 10 % 10), Nat.digitChar (n % 10)]

/-- Rendering `strftime("%d.%m.%Y")` of a stored birthday date. -/
def renderDate (dt : Date) : String :=
  String.mk (pad2 dt.day ++ '.' :: pad2 dt.month ++ '.' :: pad4 dt.year)

example : (parseBirthday "12.05.1990").map Subtype.val = .ok ⟨12, 5, 1990⟩ := rfl
example : (parseBirthday "5.05.2024").map Subtype.val = .ok ⟨5, 5, 2024⟩ := rfl
example : parseBirthday "29.02.2023" = .error "Invalid date format. Use DD.MM.YYYY" := rfl
example : (parseBirthday "29.02.2024").map Subtype.val = .ok ⟨29, 2, 2024⟩ := rfl
example : renderDate ⟨12, 5, 1990⟩ = "12.05.1990" := by decide
example : mkPhone "123" = .error "Phone number must be 10 digits." := rfl
example : (mkPhone "1234567890").map Subtype.val = .ok "1234567890" := rfl
example : toOrdinal 2024 5 10 = 739016 := by decide

/-! ## Record -/

/-- A `Record`: name, ordered phone list, optional birthday. Python mutates
records in place; here each method returns the updated record, and a method
that can raise returns the record state at raise time alongside the message. -/
structure Record where
  name : String
  phones : List Phone
  birthday : Option BDate
deriving DecidableEq

/-- Python `Record.add_phone`: construct `Phone(phone_number)` (raising on a bad
string, before any mutation) then append it. The second component is the
raised message, if any. -/
def Record.add_phone (r : Record) (s : String) : Record × Option String :=
  match mkPhone s with
  | .error e => (r, some e)
  | .ok p => ({ r with phones := r.phones ++ [p] }, none)

/-- Python `Record.remove_phone`: keep the phones whose value differs. -/
def Record.remove_phone (r : Record) (s : String) : Record :=
  { r with phones := r.phones.filter (fun p => p.1 != s) }

/-- Python `Record.find_phone`: first phone whose value equals the argument. -/
def Record.find_phone (r : Record) (s : String) : Option Phone :=
  r.phones.find? (fun p => p.1 == s)

/-- Python `Record.edit_phone`: raise if the old number is absent, otherwise add
the new number and then remove the old one. -/
def Record.edit_phone (r : Record) (old new : String) : Record × Option String :=
  match r.find_phone old with
  | none => (r, some "Old number not found.")
  | some _ =>
    match r.add_phone new with
    | (r1, some e) => (r1, some e)
    | (r1, none) => (r1.remove_phone old, none)

/-- Python `Record.add_birthday`: validate via the `Birthday` constructor
(propagating its failure) and overwrite the stored birthday. -/
def Record.add_birthday (r : Record) (s : String) : Record × Option String :=
  match parseBirthday s with
  | .error e => (r, some e)
  | .ok b => ({ r with birthday := some b }, none)

/-- Python `Record.get_birthday`: formatted birthday or the sentinel string. -/
def Record.get_birthday (r : Record) : String :=
  match r.birthday with
  | some b => renderDate b.1
  | none => "No birthday set"

/-- Python `Record.__str__`. -/
def Record.toDisplay (r : Record) : String :=
  "Contact name: " ++ r.name ++ ", phones: " ++
    String.intercalate "; " (r.phones.map (fun p => p.1)) ++
    ", Birthday: " ++ r.get_birthday

/-! ## AddressBook -/

/-- The `AddressBook` data: an insertion-ordered mapping from name to record
(`UserDict` preserves insertion order). -/
abbrev AddressBook := List (String × Record)

/-- Lookup `self.data.get(name)`. -/
def lookupBook (book : AddressBook) (name : String) : Option Record :=
  (List.find? (fun e => e.1 == name) book).map (fun e => e.2)

/-- Dict assignment on an existing key: the value changes, the position in
insertion order does not. -/
def updateBook (book : AddressBook) (name : String) (r : Record) : AddressBook :=
  List.map (fun e => if e.1 == name then (e.1, r) else e) book

/-- Python `datetime.replace(year=...)`, with CPython `datetime` argument checks. -/
def replaceYear (dt : Date) (y : Nat) : Except String Date :=
  if 1 ≤ y ∧ y ≤ 9999 then
    if 1 ≤ dt.month ∧ dt.month ≤ 12 then
      if 1 ≤ dt.day ∧ dt.day ≤ daysInMonth y dt.month then .ok ⟨dt.day, dt.month, y⟩
      else .error "day is out of range for month"
    else .error "month must be in 1..12"
  else .error ("year " ++ toString y ++ " is out of range")

/-- Python `AddressBook.get_upcoming_birthdays`, with `datetime.today()` passed in
explicitly as `today`. A `ValueError` raised by `replace` while iterating
propagates and discards the whole result. -/
def get_upcoming_birthdays (book : AddressBook) (today : DateTime) :
    Except String (List (String × String)) :=
  match book with
  | [] => .ok []
  | (name, r) :: rest =>
    match r.birthday with
    | none => get_upcoming_birthdays rest today
    | some b =>
      match replaceYear b.1 today.year with
      | .error e => .error e
      | .ok anch =>
        if today.toSec ≤ toOrdinal anch.year anch.month anch.day * 86400 ∧
            toOrdinal anch.year anch.month anch.day * 86400 ≤ today.toSec + 7 * 86400 then
          match get_upcoming_birthdays rest today with
          | .error e => .error e
          | .ok tl => .ok ((name, r.get_birthday) :: tl)
        else get_upcoming_birthdays rest today

/-! ## Boundary handlers (`input_error`-wrapped commands) -/

/-- The `input_error` decorator on a handler that returns a string. -/
def input_error_str (x : Except String String) : String :=
  match x with
  | .ok s => s
  | .error e => "An error occurred: " ++ e

/-- Body of `AddressBook.add_contact` before the `input_error` wrapper.
An `.error` is an exception escaping the body; the book is unchanged then,
because `add_phone` raises before mutating. -/
def add_contact_inner (args : List String) (book : AddressBook) :
    Except String (AddressBook × String) :=
  match args with
  | name :: phone :: _ =>
    match lookupBook book name with
    | none => .ok (book ++ [(name, ⟨name, [], none⟩)], "Contact added.")
    | some r =>
      match r.add_phone phone with
      | (_, some e) => .error e
      | (r1, none) => .ok (updateBook book name r1, "Contact updated.")
  | _ => .ok (book, "Not enough arguments. Usage: add <name> <phone>")

/-- Python `AddressBook.add_contact` with its `input_error` wrapper applied. -/
def add_contact (args : List String) (book : AddressBook) : AddressBook × String :=
  match add_contact_inner args book with
  | .ok x => x
  | .error e => (book, "An error occurred: " ++ e)

/-- Body of the `add_birthday` handler (tuple unpacking of `args`, lookup,
`record.add_birthday`). -/
def add_birthday_cmd_inner (args : List String) (book : AddressBook) :
    Except String (AddressBook × String) :=
  match args with
  | [name, bstr] =>
    match lookupBook book name with
    | none => .ok (book, "Contact not found.")
    | some r =>
      match r.add_birthday bstr with
      | (_, some e) => .error e
      | (r1, none) => .ok (updateBook book name r1, "Birthday added.")
  | [] => .error "not enough values to unpack (expected 2, got 0)"
  | [_] => .error "not enough values to unpack (expected 2, got 1)"
  | _ => .error "too many values to unpack (expected 2)"

/-- Body of the `show_birthday` handler. -/
def show_birthday_inner (args : List String) (book : AddressBook) :
    Except String String :=
  match args with
  | [] => .error "list index out of range"
  | name :: _ =>
    match lookupBook book name with
    | none => .ok "Contact not found."
    | some r =>
      match r.birthday with
      | none => .ok "Birthday not set."
      | some b =>
        .ok (name ++ String.singleton (Char.ofNat 39) ++ "s birthday is on " ++
          renderDate b.1 ++ ".")

/-- Body of the `birthdays` handler. -/
def birthdays_inner (today : DateTime) (book : AddressBook) : Except String String :=
  match get_upcoming_birthdays book today with
  | .error e => .error e
  | .ok [] => .ok "No upcoming birthdays."
  | .ok l =>
    .ok (String.intercalate "\n" (l.map (fun nb => nb.1 ++ " on " ++ nb.2)))

/-! ## The command loop (`main`), one iteration -/

/-- Split a character list at every whitespace character, keeping empty
chunks. -/
def splitWS : List Char → List (List Char)
  | [] => [[]]
  | c :: rest =>
    if c.isWhitespace then [] :: splitWS rest
    else
      match splitWS rest with
      | [] => [[c]]
      | t :: ts => (c :: t) :: ts

/-- Python `user_input.split()`: split on whitespace runs, dropping empty chunks. -/
def splitWords (s : String) : List String :=
  ((splitWS s.data).map String.mk).filter (fun w => w != "")

/-- The inline `change` branch of `main`: its `edit_phone` call is NOT
wrapped by `input_error`, so its exception escapes the loop. -/
def change_command (book : AddressBook) (args : List String) :
    Except String (AddressBook × List String) :=
  if args.length < 3 then
    .ok (book, ["Not enough arguments. Usage: change <name> <old_phone> <new_phone>"])
  else
    match args with
    | [name, oldp, newp] =>
      match lookupBook book name with
      | none => .ok (book, ["Contact not found."])
      | some r =>
        match r.edit_phone oldp newp with
        | (_, some e) => .error e
        | (r1, none) => .ok (updateBook book name r1, ["Phone number updated."])
    | _ => .error "too many values to unpack (expected 3)"

/-- The inline `phone` branch of `main`. -/
def phone_command (book : AddressBook) (args : List String) : String :=
  match args with
  | [] => "Not enough arguments. Usage: phone <name>"
  | name :: _ =>
    match lookupBook book name with
    | some r => "Phones for " ++ name ++ ": " ++
        String.intercalate ", " (r.phones.map (fun p => p.1))
    | none => "Contact not found."

/-- Dispatch of one recognized command token, following the `if`/`elif`
chain in `main`. The `.error` case is an exception escaping the loop (a
crash); `.ok` carries the new book and the printed lines. (`close`/`exit`
additionally call `save_data`, modelled separately.) -/
def runCommand (today : DateTime) (book : AddressBook) (cmd : String)
    (args : List String) : Except String (AddressBook × List String) :=
  if cmd = "close" ∨ cmd = "exit" then .ok (book, ["Good bye!"])
  else if cmd = "hello" then .ok (book, ["How can I help you?"])
  else if cmd = "add" then
    .ok ((add_contact args book).1, [(add_contact args book).2])
  else if cmd = "change" then change_command book args
  else if cmd = "phone" then .ok (book, [phone_command book args])
  else if cmd = "all" then
    .ok (book, book.map (fun e => e.1 ++ ": " ++ e.2.toDisplay))
  else if cmd = "add-birthday" then
    .ok (match add_birthday_cmd_inner args book with
      | .ok x => (x.1, [x.2])
      | .error e => (book, ["An error occurred: " ++ e]))
  else if cmd = "show-birthday" then
    .ok (book, [input_error_str (show_birthday_inner args book)])
  else if cmd = "birthdays" then
    .ok (book, [input_error_str (birthdays_inner today book)])
  else .ok (book, ["Invalid command."])

/-- One iteration of the `while True` loop in `main`: `parse_input` (whose
`parts[0]` raises `IndexError` on an all-whitespace line) followed by
dispatch. -/
def step (today : DateTime) (book : AddressBook) (line : String) :
    Except String (AddressBook × List String) :=
  match splitWords line with
  | [] => .error "list index out of range"
  | cmd :: args => runCommand today book cmd args

/-! ## Persistence (`save_data` / `load_data`, pickle as a faithful codec) -/

/-- The file system: a map from path to stored byte stream. -/
abbrev FS := String → Option (List Nat)

/-- Length-prefixed serialization of a string. -/
def encStr (s : String) : List Nat :=
  s.length :: s.data.map Char.toNat

/-- Inverse of `encStr` on well-formed streams. -/
def decStr (l : List Nat) : Option (String × List Nat) :=
  match l with
  | [] => none
  | n :: rest =>
    if n ≤ rest.length then
      some (String.mk ((rest.take n).map Char.ofNat), rest.drop n)
    else none

/-- Serialization of the stored birthday. -/
def encBirthday : Option BDate → List Nat
  | none => [0]
  | some b => [1, b.1.day, b.1.month, b.1.year]

/-- Inverse of `encBirthday` on well-formed streams. -/
def decBirthday (l : List Nat) : Option (Option BDate × List Nat) :=
  match l with
  | 0 :: rest => some (none, rest)
  | 1 :: d :: m :: y :: rest =>
    if h : ValidDate ⟨d, m, y⟩ then some (some ⟨⟨d, m, y⟩, h⟩, rest) else none
  | _ => none

/-- Serialization of the phone list. -/
def encPhones (ps : List Phone) : List Nat :=
  ps.length :: (ps.map (fun p => encStr p.1)).flatten

/-- Inverse of `encPhones`, reading a known count of phones. -/
def decPhones : Nat → List Nat → Option (List Phone × List Nat)
  | 0, l => some ([], l)
  | n + 1, l =>
    match decStr l with
    | none => none
    | some (s, l1) =>
      if h : isValidPhone s = true then
        match decPhones n l1 with
        | none => none
        | some (ps, l2) => some (⟨s, h⟩ :: ps, l2)
      else none

/-- Serialization of one record. -/
def encRecord (r : Record) : List Nat :=
  encStr r.name ++ encPhones r.phones ++ encBirthday r.birthday

/-- Inverse of `encRecord` on well-formed streams. -/
def decRecord (l : List Nat) : Option (Record × List Nat) :=
  match decStr l with
  | none => none
  | some (nm, l1) =>
    match l1 with
    | [] => none
    | cnt :: l2 =>
      match decPhones cnt l2 with
      | none => none
      | some (ps, l3) =>
        match decBirthday l3 with
        | none => none
        | some (bd, l4) => some (⟨nm, ps, bd⟩, l4)

/-- Serialization of the whole mapping, in insertion order. -/
def encBook (book : AddressBook) : List Nat :=
  book.length :: (book.map (fun e => encStr e.1 ++ encRecord e.2)).flatten

/-- Reads a known count of (name, record) entries. -/
def decEntries : Nat → List Nat → Option (AddressBook × List Nat)
  | 0, l => some ([], l)
  | n + 1, l =>
    match decStr l with
    | none => none
    | some (k, l1) =>
      match decRecord l1 with
      | none => none
      | some (r, l2) =>
        match decEntries n l2 with
        | none => none
        | some (es, l3) => some ((k, r) :: es, l3)

/-- Python `pickle.load`: read one serialized `AddressBook` from the stream. -/
def decBook (l : List Nat) : Option AddressBook :=
  match l with
  | [] => none
  | n :: rest => (decEntries n rest).map (fun x => x.1)

/-- Python `save_data`: serialize the book and write it to `path`, overwriting. -/
def save_data (fs : FS) (path : String) (book : AddressBook) : FS :=
  fun q => if q = path then some (encBook book) else fs q

/-- Python `load_data`: read and deserialize; a missing file or a failed
deserialization yields a fresh empty `AddressBook`. -/
def load_data (fs : FS) (path : String) : AddressBook :=
  match fs path with
  | none => []
  | some bytes =>
    match decBook bytes with
    | some b => b
    | none => []

/-! ## Helper lemmas: characters and digits -/

theorem char_isDigit_iff (c : Char) : c.isDigit = true ↔ 48 ≤ c.toNat ∧ c.toNat ≤ 57 := by
  simp only [Char.isDigit, Bool.and_eq_true, decide_eq_true_eq, ge_iff_le]
  constructor
  · rintro ⟨h1, h2⟩
    exact ⟨h1, h2⟩
  · rintro ⟨h1, h2⟩
    exact ⟨h1, h2⟩

theorem isValidPhone_iff (s : String) :
    isValidPhone s = true ↔
      s.length = 10 ∧ ∀ c ∈ s.data, 48 ≤ c.toNat ∧ c.toNat ≤ 57 := by
  simp only [isValidPhone, Bool.and_eq_true, beq_iff_eq, List.all_eq_true]
  constructor
  · rintro ⟨h1, h2⟩
    exact ⟨h1, fun c hc => (char_isDigit_iff c).1 (h2 c hc)⟩
  · rintro ⟨h1, h2⟩
    exact ⟨h1, fun c hc => (char_isDigit_iff c).2 (h2 c hc)⟩

theorem digitChar_toNat (k : Nat) (h : k < 10) : (Nat.digitChar k).toNat = 48 + k := by
  interval_cases k <;> rfl

theorem digitChar_isDigit (k : Nat) (h : k < 10) : (Nat.digitChar k).isDigit = true := by
  interval_cases k <;> rfl

theorem digitChar_ne_dot (k : Nat) (h : k < 10) : Nat.digitChar k ≠ '.' := by
  interval_cases k <;> decide

/-! ## First claim group: phone validation and record mutations -/

/-- C2 counterexample: the `ValueError` text raised by `Phone.__init__` ends
with a period, so it is not the string the claim names. -/
theorem phone_error_message_cx :
    mkPhone "123" = .error "Phone number must be 10 digits." ∧
      "Phone number must be 10 digits." ≠ "Phone number must be 10 digits" :=
  ⟨rfl, by decide⟩

/-- C2 (amended): a string of length 10 whose characters are all decimal
digits (code points 48-57) yields a `Phone` rendering as the input itself;
any other string fails with the message "Phone number must be 10 digits."
(with a trailing period). -/
theorem phone_validation (s : String) :
    ((s.length = 10 ∧ ∀ c ∈ s.data, 48 ≤ c.toNat ∧ c.toNat ≤ 57) →
      (mkPhone s).map Subtype.val = .ok s) ∧
    (¬(s.length = 10 ∧ ∀ c ∈ s.data, 48 ≤ c.toNat ∧ c.toNat ≤ 57) →
      mkPhone s = .error "Phone number must be 10 digits.") := by
  constructor
  · intro h
    have hv : isValidPhone s = true := (isValidPhone_iff s).2 h
    simp [mkPhone, hv, Except.map]
  · intro h
    have hv : ¬ isValidPhone s = true := fun hc => h ((isValidPhone_iff s).1 hc)
    simp [mkPhone, hv]

/-- C2 witness: the amended theorem applied at "0123456789" and at "12a". -/
theorem phone_validation_witness :
    (mkPhone "0123456789").map Subtype.val = .ok "0123456789" ∧
      mkPhone "12a" = .error "Phone number must be 10 digits." :=
  ⟨(phone_validation "0123456789").1 (by decide),
   (phone_validation "12a").2 (by decide)⟩

/-- C10: a failed `add_phone` or `edit_phone` leaves the record exactly as it
was: every raise in those methods happens before any mutation. -/
theorem failed_mutations_unchanged (r : Record) (s old new : String) :
    (∀ e, (r.add_phone s).2 = some e → (r.add_phone s).1 = r) ∧
    (∀ e, (r.edit_phone old new).2 = some e → (r.edit_phone old new).1 = r) := by
  constructor
  · intro e
    unfold Record.add_phone
    cases mkPhone s <;> simp
  · intro e
    unfold Record.edit_phone
    cases hf : r.find_phone old with
    | none => simp
    | some q =>
      cases hadd : r.add_phone old with
      | mk r1 err =>
        unfold Record.add_phone
        cases mkPhone new <;> simp

/-- C10 witness: the theorem applied to a concrete record and a bad phone
string and a missing old number. -/
theorem failed_mutations_unchanged_witness :
    ((Record.add_phone ⟨"Alice", [], none⟩ "abc").2 = some "Phone number must be 10 digits." →
      (Record.add_phone ⟨"Alice", [], none⟩ "abc").1 = ⟨"Alice", [], none⟩) ∧
    ((Record.edit_phone ⟨"Alice", [], none⟩ "0000000000" "1111111111").2 = some "Old number not found." →
      (Record.edit_phone ⟨"Alice", [], none⟩ "0000000000" "1111111111").1 = ⟨"Alice", [], none⟩) :=
  ⟨(failed_mutations_unchanged ⟨"Alice", [], none⟩ "abc" "0000000000" "1111111111").1 _,
   (failed_mutations_unchanged ⟨"Alice", [], none⟩ "abc" "0000000000" "1111111111").2 _⟩

/-- C6 counterexample: the error text raised by `edit_phone` on a missing
old number ends with a period, so it is not the string the claim names. -/
theorem edit_phone_message_cx :
    Record.edit_phone ⟨"Alice", [⟨"1234567890", rfl⟩], none⟩ "0000000000" "1111111111" =
      (⟨"Alice", [⟨"1234567890", rfl⟩], none⟩, some "Old number not found.") ∧
    "Old number not found." ≠ "Old number not found" :=
  ⟨rfl, by decide⟩

/-- C6 (amended): with `old != new`, `edit_phone(old, new)` fails with the
message "Old number not found." (trailing period) when no phone equals
`old`; when some phone equals `old` and `new` is a valid phone it succeeds,
and afterwards the phone list contains no occurrence of `old` and contains
`new`. -/
theorem edit_phone_behavior (r : Record) (old new : String) (hne : old ≠ new) :
    ((∀ q ∈ r.phones, q.1 ≠ old) →
      r.edit_phone old new = (r, some "Old number not found.")) ∧
    ((∃ q ∈ r.phones, q.1 = old) → ∀ h : isValidPhone new = true,
      (r.edit_phone old new).2 = none ∧
      (∀ q ∈ (r.edit_phone old new).1.phones, q.1 ≠ old) ∧
      (∃ q ∈ (r.edit_phone old new).1.phones, q.1 = new)) := by
  constructor
  · intro habs
    have hf : r.find_phone old = none := by
      unfold Record.find_phone
      rw [List.find?_eq_none]
      intro q hq
      simpa using habs q hq
    unfold Record.edit_phone
    rw [hf]
  · rintro ⟨q, hq, hqv⟩ h
    have hf : ∃ p, r.find_phone old = some p := by
      unfold Record.find_phone
      rw [← Option.isSome_iff_exists, List.find?_isSome]
      exact ⟨q, hq, by simpa using hqv⟩
    obtain ⟨p, hp⟩ := hf
    unfold Record.edit_phone Record.add_phone
    rw [hp]
    simp only [mkPhone, h, reduceDIte]
    refine ⟨by trivial, ?_, ?_⟩
    · intro q2 hq2
      simp only [Record.remove_phone, List.mem_filter, bne_iff_ne, ne_eq] at hq2
      exact hq2.2
    · refine ⟨⟨new, h⟩, ?_, rfl⟩
      simp only [Record.remove_phone, List.mem_filter, List.mem_append]
      exact ⟨Or.inr (by simp), by simpa using (Ne.symm hne)⟩

/-- C6 witness: the amended theorem applied to a concrete record, for both
the missing-old case and the successful-edit case. -/
theorem edit_phone_behavior_witness :
    Record.edit_phone ⟨"Bob", [⟨"1234567890", rfl⟩], none⟩ "0000000000" "1111111111" =
      (⟨"Bob", [⟨"1234567890", rfl⟩], none⟩, some "Old number not found.") ∧
    (Record.edit_phone ⟨"Bob", [⟨"1234567890", rfl⟩], none⟩ "1234567890" "1111111111").2 = none :=
  ⟨(edit_phone_behavior ⟨"Bob", [⟨"1234567890", rfl⟩], none⟩ "0000000000" "1111111111"
      (by decide)).1 (by decide),
   ((edit_phone_behavior ⟨"Bob", [⟨"1234567890", rfl⟩], none⟩ "1234567890" "1111111111"
      (by decide)).2 ⟨⟨"1234567890", rfl⟩, by simp, rfl⟩ rfl).1⟩

/-- C7: `edit_phone(p, p)` with `p` present succeeds and removes every
occurrence of `p`: the new duplicate is appended and then the removal
deletes the duplicate together with the original. -/
theorem edit_phone_same_value (r : Record) (p : String)
    (hmem : ∃ q ∈ r.phones, q.1 = p) :
    r.edit_phone p p = ({ r with phones := r.phones.filter (fun q => q.1 != p) }, none) ∧
    ∀ q ∈ (r.edit_phone p p).1.phones, q.1 ≠ p := by
  obtain ⟨q, hq, hqv⟩ := hmem
  have hvalid : isValidPhone p = true := hqv ▸ q.2
  have hf : ∃ p2, r.find_phone p = some p2 := by
    unfold Record.find_phone
    rw [← Option.isSome_iff_exists, List.find?_isSome]
    exact ⟨q, hq, by simpa using hqv⟩
  obtain ⟨p2, hp2⟩ := hf
  have heq : r.edit_phone p p =
      ({ r with phones := r.phones.filter (fun q => q.1 != p) }, none) := by
    unfold Record.edit_phone Record.add_phone
    rw [hp2]
    simp only [mkPhone, hvalid, reduceDIte, Record.remove_phone]
    simp [List.filter_append]
  refine ⟨heq, ?_⟩
  rw [heq]
  intro q2 hq2
  simp only [List.mem_filter, bne_iff_ne, ne_eq] at hq2
  exact hq2.2

/-- C7 witness: the theorem applied to a record that holds the phone twice. -/
theorem edit_phone_same_value_witness :
    Record.edit_phone ⟨"Eve", [⟨"1234567890", rfl⟩, ⟨"1234567890", rfl⟩], none⟩
        "1234567890" "1234567890" = (⟨"Eve", [], none⟩, none) :=
  (edit_phone_same_value ⟨"Eve", [⟨"1234567890", rfl⟩, ⟨"1234567890", rfl⟩], none⟩
      "1234567890" ⟨⟨"1234567890", rfl⟩, by simp, rfl⟩).1

/-! ## Helper lemmas: the `%d.%m.%Y` parser and renderer -/

theorem splitDots_nodot (xs : List Char) (h : '.' ∉ xs) : splitDots xs = [xs] := by
  induction xs with
  | nil => rfl
  | cons c cs ih =>
    simp only [List.mem_cons, not_or] at h
    unfold splitDots
    rw [if_neg (by exact fun hc => h.1 hc.symm), ih h.2]

theorem splitDots_append (xs rest : List Char) (h : '.' ∉ xs) :
    splitDots (xs ++ '.' :: rest) = xs :: splitDots rest := by
  induction xs with
  | nil =>
    simp [splitDots]
  | cons c cs ih =>
    simp only [List.mem_cons, not_or] at h
    rw [List.cons_append]
    conv_lhs => unfold splitDots
    rw [if_neg (by exact fun hc => h.1 hc.symm), ih h.2]

theorem natOfDigits_pad2 (n : Nat) (h : n < 100) : natOfDigits (pad2 n) = n := by
  have h1 : n / 10 < 10 := by omega
  have h2 : n % 10 < 10 := by omega
  simp only [natOfDigits, pad2, List.foldl_cons, List.foldl_nil,
    digitChar_toNat _ h1, digitChar_toNat _ h2]
  omega

theorem natOfDigits_pad4 (n : Nat) (h : n < 10000) : natOfDigits (pad4 n) = n := by
  have h1 : n / 1000 < 10 := by omega
  have h2 : n / 100 % 10 < 10 := by omega
  have h3 : n / 10 % 10 < 10 := by omega
  have h4 : n % 10 < 10 := by omega
  simp only [natOfDigits, pad4, List.foldl_cons, List.foldl_nil,
    digitChar_toNat _ h1, digitChar_toNat _ h2, digitChar_toNat _ h3, digitChar_toNat _ h4]
  omega

theorem allDigits_pad2 (n : Nat) (h : n < 100) : allDigits (pad2 n) = true := by
  have h1 : n / 10 < 10 := by omega
  have h2 : n % 10 < 10 := by omega
  simp [allDigits, pad2, digitChar_isDigit _ h1, digitChar_isDigit _ h2]

theorem allDigits_pad4 (n : Nat) (h : n < 10000) : allDigits (pad4 n) = true := by
  have h1 : n / 1000 < 10 := by omega
  have h2 : n / 100 % 10 < 10 := by omega
  have h3 : n / 10 % 10 < 10 := by omega
  have h4 : n % 10 < 10 := by omega
  simp [allDigits, pad4, digitChar_isDigit _ h1, digitChar_isDigit _ h2,
    digitChar_isDigit _ h3, digitChar_isDigit _ h4]

theorem dot_notin_pad2 (n : Nat) (h : n < 100) : '.' ∉ pad2 n := by
  have h1 : n / 10 < 10 := by omega
  have h2 : n % 10 < 10 := by omega
  simp only [pad2, List.mem_cons, List.not_mem_nil, or_false, not_or]
  exact ⟨fun hc => digitChar_ne_dot _ h1 hc.symm, fun hc => digitChar_ne_dot _ h2 hc.symm⟩

theorem dot_notin_pad4 (n : Nat) (h : n < 10000) : '.' ∉ pad4 n := by
  have h1 : n / 1000 < 10 := by omega
  have h2 : n / 100 % 10 < 10 := by omega
  have h3 : n / 10 % 10 < 10 := by omega
  have h4 : n % 10 < 10 := by omega
  simp only [pad4, List.mem_cons, List.not_mem_nil, or_false, not_or]
  exact ⟨fun hc => digitChar_ne_dot _ h1 hc.symm, fun hc => digitChar_ne_dot _ h2 hc.symm,
    fun hc => digitChar_ne_dot _ h3 hc.symm, fun hc => digitChar_ne_dot _ h4 hc.symm⟩

theorem daysInMonth_le_31 : ∀ (y m : Nat), daysInMonth y m ≤ 31 := by
  intro y m
  unfold daysInMonth
  split
  · omega
  · split <;> omega
  all_goals omega

theorem renderDate_splitDots (dt : Date) (hd : dt.day < 100) (hm : dt.month < 100)
    (hy : dt.year < 10000) :
    splitDots (renderDate dt).data = [pad2 dt.day, pad2 dt.month, pad4 dt.year] := by
  show splitDots (pad2 dt.day ++ '.' :: (pad2 dt.month ++ '.' :: pad4 dt.year)) = _
  rw [splitDots_append _ _ (dot_notin_pad2 _ hd),
    splitDots_append _ _ (dot_notin_pad2 _ hm),
    splitDots_nodot _ (dot_notin_pad4 _ hy)]

/-- Parsing the canonical `DD.MM.YYYY` rendering of a valid date recovers
exactly that date. -/
theorem parseBirthday_renderDate (dt : Date) (h : ValidDate dt) :
    parseBirthday (renderDate dt) = .ok ⟨dt, h⟩ := by
  obtain ⟨hy1, hy2, hm1, hm2, hd1, hd2⟩ := h
  have hd31 : dt.day ≤ 31 := le_trans hd2 (daysInMonth_le_31 _ _)
  have hd100 : dt.day < 100 := by omega
  have hm100 : dt.month < 100 := by omega
  have hy10000 : dt.year < 10000 := by omega
  unfold parseBirthday
  have hsplit := renderDate_splitDots dt hd100 hm100 hy10000
  have hday : dayTokVal (pad2 dt.day) = some dt.day := by
    unfold dayTokVal
    rw [if_pos ⟨allDigits_pad2 _ hd100, by simp [pad2],
      by rw [natOfDigits_pad2 _ hd100]; omega, by rw [natOfDigits_pad2 _ hd100]; omega⟩,
      natOfDigits_pad2 _ hd100]
  have hmonth : monthTokVal (pad2 dt.month) = some dt.month := by
    unfold monthTokVal
    rw [if_pos ⟨allDigits_pad2 _ hm100, by simp [pad2],
      by rw [natOfDigits_pad2 _ hm100]; omega, by rw [natOfDigits_pad2 _ hm100]; omega⟩,
      natOfDigits_pad2 _ hm100]
  have hyear : yearTokVal (pad4 dt.year) = some dt.year := by
    unfold yearTokVal
    rw [if_pos ⟨allDigits_pad4 _ hy10000, by simp [pad4]⟩, natOfDigits_pad4 _ hy10000]
  have hv : ValidDate ⟨dt.day, dt.month, dt.year⟩ := ⟨hy1, hy2, hm1, hm2, hd1, hd2⟩
  simp only [hsplit, hday, hmonth, hyear, dif_pos hv]

/-- Every failure of `Birthday.__init__` produces the one fixed message. -/
theorem parseBirthday_error_message (s : String) :
    (∃ b, parseBirthday s = .ok b) ∨
      parseBirthday s = .error "Invalid date format. Use DD.MM.YYYY" := by
  unfold parseBirthday
  rcases hs : splitDots s.data with _ | ⟨ds, _ | ⟨ms, _ | ⟨ys, _ | _⟩⟩⟩ <;>
    simp only []
  · right; trivial
  · right; trivial
  · right; trivial
  · rcases dayTokVal ds with _ | d <;> rcases monthTokVal ms with _ | m <;>
      rcases yearTokVal ys with _ | y <;> simp only []
    · right; trivial
    · right; trivial
    · right; trivial
    · right; trivial
    · right; trivial
    · right; trivial
    · right; trivial
    · by_cases hv : ValidDate ⟨d, m, y⟩
      · left; exact ⟨⟨⟨d, m, y⟩, hv⟩, by rw [dif_pos hv]⟩
      · right; rw [dif_neg hv]
  · right; trivial

/-- The set of strings the claim describes (spec wording): a `DD.MM.YYYY`
string with 2-digit day, 2-digit month, 4-digit year denoting a real
calendar date, i.e. exactly the canonical renderings of valid dates. -/
def specFormDDMMYYYY (s : String) : Prop :=
  ∃ dt : Date, ValidDate dt ∧ s = renderDate dt

theorem renderDate_length (dt : Date) : (renderDate dt).length = 10 := by
  simp [renderDate, pad2, pad4, String.length]

/-- C3 counterexample: "5.05.2024" is not of the exact `DD.MM.YYYY` form
(its day field has one digit), yet `Birthday.__init__` accepts it, because
`strptime` lets `%d` match a single digit. -/
theorem birthday_flexible_cx :
    ¬ specFormDDMMYYYY "5.05.2024" ∧
      (parseBirthday "5.05.2024").map Subtype.val = .ok ⟨5, 5, 2024⟩ := by
  constructor
  · rintro ⟨dt, _, he⟩
    have h10 := renderDate_length dt
    rw [← he] at h10
    exact absurd h10 (by decide)
  · rfl

/-- C3 (amended): the canonical `DD.MM.YYYY` rendering of every real
calendar date parses back to exactly that date (so construction succeeds
and re-rendering reproduces the input), and every failing input produces
the validation error "Invalid date format. Use DD.MM.YYYY"; however,
acceptance is wider than the exact form: `strptime` also accepts one-digit
day or month fields (e.g. "5.05.2024"). -/
theorem birthday_roundtrip (dt : Date) :
    (∀ h : ValidDate dt, parseBirthday (renderDate dt) = .ok ⟨dt, h⟩) ∧
    (∀ s : String,
      (∃ b, parseBirthday s = .ok b) ∨
        parseBirthday s = .error "Invalid date format. Use DD.MM.YYYY") := by
  constructor
  · intro h
    exact parseBirthday_renderDate dt h
  · exact parseBirthday_error_message

/-- C3 witness: the amended theorem applied at the date 12.05.1990. -/
theorem birthday_roundtrip_witness :
    parseBirthday (renderDate ⟨12, 5, 1990⟩) = .ok ⟨⟨12, 5, 1990⟩, by decide⟩ ∧
      parseBirthday "29.02.2023" = .error "Invalid date format. Use DD.MM.YYYY" :=
  ⟨(birthday_roundtrip ⟨12, 5, 1990⟩).1 (by decide), rfl⟩

/-! ## Helper lemmas: serialization roundtrip -/

theorem decStr_encStr (s : String) (rest : List Nat) :
    decStr (encStr s ++ rest) = some (s, rest) := by
  have hlen : s.length = (s.data.map Char.toNat).length := by
    rw [List.length_map, String.length]
  have h1 : String.mk (((s.data.map Char.toNat ++ rest).take s.length).map Char.ofNat) = s := by
    rw [hlen, List.take_left, List.map_map]
    have hc : ∀ c ∈ s.data, (Char.ofNat ∘ Char.toNat) c = c := fun c _ => Char.ofNat_toNat c
    rw [List.map_congr_left hc]
    rw [show List.map (fun c => c) s.data = s.data from by simp]
  have h2 : (s.data.map Char.toNat ++ rest).drop s.length = rest := by
    rw [hlen, List.drop_left]
  have hcond : s.length ≤ (s.data.map Char.toNat ++ rest).length := by
    rw [List.length_append, ← hlen]
    omega
  show (if s.length ≤ (s.data.map Char.toNat ++ rest).length then
      some (String.mk (((s.data.map Char.toNat ++ rest).take s.length).map Char.ofNat),
        (s.data.map Char.toNat ++ rest).drop s.length)
    else none) = some (s, rest)
  rw [if_pos hcond, h1, h2]

theorem decBirthday_encBirthday (bd : Option BDate) (rest : List Nat) :
    decBirthday (encBirthday bd ++ rest) = some (bd, rest) := by
  cases bd with
  | none => rfl
  | some b =>
    show (if h : ValidDate ⟨b.1.day, b.1.month, b.1.year⟩ then
        some (some ⟨⟨b.1.day, b.1.month, b.1.year⟩, h⟩, rest)
      else none) = some (some b, rest)
    rw [dif_pos b.2]

theorem decPhones_encPhones (ps : List Phone) (rest : List Nat) :
    decPhones ps.length ((ps.map (fun p => encStr p.1)).flatten ++ rest) =
      some (ps, rest) := by
  induction ps with
  | nil => rfl
  | cons p ps ih =>
    simp only [List.map_cons, List.flatten_cons, List.length_cons, List.append_assoc]
    unfold decPhones
    simp only [decStr_encStr, dif_pos p.2, ih]

theorem decRecord_encRecord (r : Record) (rest : List Nat) :
    decRecord (encRecord r ++ rest) = some (r, rest) := by
  unfold encRecord encPhones decRecord
  simp only [List.append_assoc, List.cons_append, decStr_encStr,
    decPhones_encPhones, decBirthday_encBirthday]

theorem decEntries_encBook (book : AddressBook) (rest : List Nat) :
    decEntries book.length
      ((book.map (fun e => encStr e.1 ++ encRecord e.2)).flatten ++ rest) =
      some (book, rest) := by
  induction book with
  | nil => rfl
  | cons e es ih =>
    simp only [List.map_cons, List.flatten_cons, List.length_cons, List.append_assoc]
    unfold decEntries
    simp only [decStr_encStr, decRecord_encRecord, ih]

theorem decBook_encBook (book : AddressBook) : decBook (encBook book) = some book := by
  unfold encBook decBook
  have h := decEntries_encBook book []
  rw [List.append_nil] at h
  simp only [h]
  rfl

/-- C1: saving an AddressBook to a path and loading from that same path
reproduces the book exactly (hence the same names, phone lists and
birthdays); loading from a path with no file yields an empty AddressBook. -/
theorem save_load_roundtrip (fs : FS) (path : String) (book : AddressBook) :
    load_data (save_data fs path book) path = book ∧
    (∀ (fs2 : FS) (p : String), fs2 p = none → load_data fs2 p = []) := by
  constructor
  · unfold load_data save_data
    simp only [if_pos, decBook_encBook]
  · intro fs2 p h
    unfold load_data
    rw [h]

/-- C1 witness: the roundtrip at a concrete one-contact book and the
empty-file-system case at a concrete path. -/
theorem save_load_roundtrip_witness :
    load_data
      (save_data (fun _ => none) "addressbook.pkl"
        [("Alice", ⟨"Alice", [⟨"1234567890", rfl⟩], some ⟨⟨12, 5, 1990⟩, by decide⟩⟩)])
      "addressbook.pkl" =
      [("Alice", ⟨"Alice", [⟨"1234567890", rfl⟩], some ⟨⟨12, 5, 1990⟩, by decide⟩⟩)] ∧
    load_data (fun _ => none) "addressbook.pkl" = [] :=
  ⟨(save_load_roundtrip (fun _ => none) "addressbook.pkl"
      [("Alice", ⟨"Alice", [⟨"1234567890", rfl⟩], some ⟨⟨12, 5, 1990⟩, by decide⟩⟩)]).1,
   (save_load_roundtrip (fun _ => none) "addressbook.pkl"
      [("Alice", ⟨"Alice", [⟨"1234567890", rfl⟩], some ⟨⟨12, 5, 1990⟩, by decide⟩⟩)]).2
     (fun _ => none) "addressbook.pkl" rfl⟩

/-! ## C4 / C9: the upcoming-birthday window -/

/-- The result the amended claim describes: in mapping order, the pair
(name, formatted stored birthday) of each record whose birthday, re-anchored
onto the current year at midnight, lies between the current `datetime` and
the current `datetime` plus seven days, both ends compared as datetimes. -/
def upcoming_spec (book : AddressBook) (today : DateTime) : List (String × String) :=
  book.filterMap (fun e =>
    match e.2.birthday with
    | none => none
    | some b =>
      if today.toSec ≤ toOrdinal today.year b.1.month b.1.day * 86400 ∧
          toOrdinal today.year b.1.month b.1.day * 86400 ≤ today.toSec + 7 * 86400 then
        some (e.1, renderDate b.1)
      else none)

theorem daysInMonth_ne_two : ∀ (y y2 m : Nat), m ≠ 2 → daysInMonth y m = daysInMonth y2 m
  | _, _, 0, _ => rfl
  | _, _, 1, _ => rfl
  | _, _, 2, h => absurd rfl h
  | _, _, 3, _ => rfl
  | _, _, 4, _ => rfl
  | _, _, 5, _ => rfl
  | _, _, 6, _ => rfl
  | _, _, 7, _ => rfl
  | _, _, 8, _ => rfl
  | _, _, 9, _ => rfl
  | _, _, 10, _ => rfl
  | _, _, 11, _ => rfl
  | _, _, 12, _ => rfl
  | _, _, n + 13, _ => rfl

/-- Applying `replace(year=...)` to a stored (valid) birthday succeeds exactly when
the day fits the month in the target year. -/
theorem replaceYear_ok (b : BDate) (y : Nat) (hy1 : 1 ≤ y) (hy2 : y ≤ 9999)
    (hday : b.1.day ≤ daysInMonth y b.1.month) :
    replaceYear b.1 y = .ok ⟨b.1.day, b.1.month, y⟩ := by
  obtain ⟨_, _, hm1, hm2, hd1, _⟩ := b.2
  unfold replaceYear
  rw [if_pos ⟨hy1, hy2⟩, if_pos ⟨hm1, hm2⟩, if_pos ⟨hd1, hday⟩]

/-- C4 (amended): when every stored birthday re-anchors validly onto the
current year (no Feb 29 in a non-leap year), `get_upcoming_birthdays`
returns exactly the records whose re-anchored birthday (at midnight) lies
within `[now, now + 7 days]` compared as datetimes, in mapping order. -/
theorem upcoming_birthdays_window (book : AddressBook) (today : DateTime)
    (hy1 : 1 ≤ today.year) (hy2 : today.year ≤ 9999)
    (hanch : ∀ e ∈ book, ∀ b : BDate, e.2.birthday = some b →
      b.1.day ≤ daysInMonth today.year b.1.month) :
    get_upcoming_birthdays book today = .ok (upcoming_spec book today) := by
  induction book with
  | nil => rfl
  | cons e es ih =>
    have hhead := fun b hb => hanch e (List.mem_cons_self e es) b hb
    have htail : ∀ e2 ∈ es, ∀ b : BDate, e2.2.birthday = some b →
        b.1.day ≤ daysInMonth today.year b.1.month :=
      fun e2 he2 b hb => hanch e2 (List.mem_cons_of_mem e he2) b hb
    obtain ⟨name, r⟩ := e
    unfold get_upcoming_birthdays upcoming_spec
    cases hb : r.birthday with
    | none =>
      simp only [hb]
      rw [ih htail]
      unfold upcoming_spec
      simp [hb]
    | some b =>
      simp only [hb]
      rw [replaceYear_ok b today.year hy1 hy2 (hhead b hb)]
      simp only []
      rw [ih htail]
      by_cases hw : today.toSec ≤ toOrdinal today.year b.1.month b.1.day * 86400 ∧
          toOrdinal today.year b.1.month b.1.day * 86400 ≤ today.toSec + 7 * 86400
      · rw [if_pos hw]
        unfold upcoming_spec
        simp only [List.filterMap_cons, hb]
        rw [if_pos hw]
        simp [Record.get_birthday, hb]
      · rw [if_neg hw]
        unfold upcoming_spec
        simp only [List.filterMap_cons, hb]
        rw [if_neg hw]

/-- C4 counterexample: a birthday whose re-anchored date IS today's date is
excluded, because `datetime.today()` carries the time of day (here 01:00)
and the comparison `today <= birthday_this_year` is a datetime comparison
against midnight. -/
theorem upcoming_today_excluded_cx :
    get_upcoming_birthdays
        [("Alice", ⟨"Alice", [], some ⟨⟨10, 5, 1990⟩, by decide⟩⟩)]
        ⟨2024, 5, 10, 3600⟩ = .ok [] ∧
      replaceYear ⟨10, 5, 1990⟩ 2024 = .ok ⟨10, 5, 2024⟩ :=
  ⟨rfl, rfl⟩

/-- C4 witness: the amended characterization applied to the spec example,
at midnight of 10.05.2024: the 12.05.1990 birthday is listed with its
original rendering and the 20.05.1990 one is not. -/
theorem upcoming_birthdays_window_witness :
    get_upcoming_birthdays
      [("Alice", ⟨"Alice", [], some ⟨⟨12, 5, 1990⟩, by decide⟩⟩),
       ("Bob", ⟨"Bob", [], some ⟨⟨20, 5, 1990⟩, by decide⟩⟩)]
      ⟨2024, 5, 10, 0⟩ = .ok [("Alice", "12.05.1990")] := by
  rw [upcoming_birthdays_window _ _ (by decide) (by decide) ?_]
  · rfl
  · intro e he b hb
    rcases List.mem_cons.1 he with rfl | he
    · cases hb
      decide
    · rcases List.mem_cons.1 he with rfl | he
      · cases hb
        decide
      · cases he

theorem daysInMonth_feb_le (y : Nat) : daysInMonth y 2 ≤ 29 := by
  show (if isLeap y then 29 else 28) ≤ 29
  split <;> omega

theorem daysInMonth_feb_nonleap (y : Nat) (hl : isLeap y = false) :
    daysInMonth y 2 = 28 := by
  show (if isLeap y then 29 else 28) = 28
  simp [hl]

/-- Applying `replace(year=y)` to a stored Feb 29 birthday raises the day-range
`ValueError` when `y` is not a leap year. -/
theorem replaceYear_feb29_nonleap (b : BDate) (y : Nat) (hl : isLeap y = false)
    (hy1 : 1 ≤ y) (hy2 : y ≤ 9999) (hm : b.1.month = 2) (hd : b.1.day = 29) :
    replaceYear b.1 y = .error "day is out of range for month" := by
  have h28 : daysInMonth y b.1.month = 28 := by
    rw [hm]
    exact daysInMonth_feb_nonleap y hl
  unfold replaceYear
  rw [if_pos ⟨hy1, hy2⟩, if_pos ⟨by omega, by rw [hm]; omega⟩, if_neg (by omega)]

/-- C9 (amended): when some record's birthday is Feb 29 and the current
year is not a leap year, `get_upcoming_birthdays` does not roll or exclude:
the `replace` call raises `ValueError("day is out of range for month")`,
which propagates out of the function. -/
theorem feb29_error (book : AddressBook) (today : DateTime)
    (hl : isLeap today.year = false) (hy1 : 1 ≤ today.year) (hy2 : today.year ≤ 9999)
    (hfeb : ∃ e ∈ book, ∃ b : BDate, e.2.birthday = some b ∧ b.1.month = 2 ∧ b.1.day = 29) :
    get_upcoming_birthdays book today = .error "day is out of range for month" := by
  induction book with
  | nil =>
    obtain ⟨e, he, _⟩ := hfeb
    cases he
  | cons e es ih =>
    obtain ⟨e2, he2, b, hb, hm, hd⟩ := hfeb
    obtain ⟨name, r⟩ := e
    unfold get_upcoming_birthdays
    rcases List.mem_cons.1 he2 with rfl | he2tail
    · have hb2 : r.birthday = some b := hb
      simp only [hb2]
      rw [replaceYear_feb29_nonleap b today.year hl hy1 hy2 hm hd]
    · cases hbh : r.birthday with
      | none =>
        simp only [hbh]
        exact ih ⟨e2, he2tail, b, hb, hm, hd⟩
      | some bh =>
        simp only [hbh]
        by_cases hfebh : bh.1.month = 2 ∧ bh.1.day = 29
        · rw [replaceYear_feb29_nonleap bh today.year hl hy1 hy2 hfebh.1 hfebh.2]
        · have hfit : bh.1.day ≤ daysInMonth today.year bh.1.month := by
            obtain ⟨_, _, _, _, _, hd2⟩ := bh.2
            by_cases hm2 : bh.1.month = 2
            · have h29 := daysInMonth_feb_le bh.1.year
              have h28 := daysInMonth_feb_nonleap today.year hl
              have hne : bh.1.day ≠ 29 := fun hc => hfebh ⟨hm2, hc⟩
              rw [hm2] at hd2 ⊢
              omega
            · rw [daysInMonth_ne_two bh.1.year today.year bh.1.month hm2] at hd2
              exact hd2
          rw [replaceYear_ok bh today.year hy1 hy2 hfit]
          simp only []
          rw [ih ⟨e2, he2tail, b, hb, hm, hd⟩]
          split <;> rfl

/-- C9 counterexample: with a stored birthday of 29.02.2000 and the current
year 2023 (not leap), `get_upcoming_birthdays` raises instead of rolling or
excluding. -/
theorem feb29_raises_cx :
    get_upcoming_birthdays [("Bob", ⟨"Bob", [], some ⟨⟨29, 2, 2000⟩, by decide⟩⟩)]
      ⟨2023, 5, 10, 0⟩ = .error "day is out of range for month" := rfl

/-- C9 witness: the amended theorem applied to a concrete book and a
non-leap current year. -/
theorem feb29_error_witness :
    get_upcoming_birthdays [("Carol", ⟨"Carol", [], some ⟨⟨29, 2, 2024⟩, by decide⟩⟩)]
      ⟨2025, 1, 1, 0⟩ = .error "day is out of range for month" :=
  feb29_error [("Carol", ⟨"Carol", [], some ⟨⟨29, 2, 2024⟩, by decide⟩⟩)]
    ⟨2025, 1, 1, 0⟩ rfl (by decide) (by decide)
    ⟨("Carol", ⟨"Carol", [], some ⟨⟨29, 2, 2024⟩, by decide⟩⟩),
      List.mem_cons_self _ _, ⟨⟨29, 2, 2024⟩, by decide⟩, rfl, rfl, rfl⟩

/-! ## C5: error handling at the command loop -/

/-- C5 counterexample: an error inside the `change` branch is not caught by
any `input_error` wrapper; one loop iteration ends with the raw exception
(the process crashes) instead of an "An error occurred: ..." reply. -/
theorem change_crash_cx :
    step ⟨2024, 5, 10, 0⟩ [("Alice", ⟨"Alice", [⟨"1234567890", rfl⟩], none⟩)]
      "change Alice 0000000000 1111111111" = .error "Old number not found." :=
  rfl

/-- C5 (amended): during one loop iteration, an uncaught exception can
escape only from an all-whitespace input line (the `parts[0]` lookup in
`parse_input`) or from the `change` command, whose `edit_phone` call is not
wrapped by `input_error`; every other recognized or unrecognized command
replies with a string, the wrapped handlers turning any internal error into
"An error occurred: <message>". -/
theorem step_error_only_change (today : DateTime) (book : AddressBook)
    (line : String) (e : String) (herr : step today book line = .error e) :
    splitWords line = [] ∨ (splitWords line).head? = some "change" := by
  unfold step at herr
  cases hs : splitWords line with
  | nil => exact Or.inl rfl
  | cons cmd args =>
    rw [hs] at herr
    right
    simp only [List.head?_cons, Option.some_inj]
    have herr2 : runCommand today book cmd args = .error e := herr
    clear herr
    rename' herr2 => herr
    unfold runCommand at herr
    by_cases h1 : cmd = "close" ∨ cmd = "exit"
    · rw [if_pos h1] at herr
      cases herr
    · rw [if_neg h1] at herr
      by_cases h2 : cmd = "hello"
      · rw [if_pos h2] at herr
        cases herr
      · rw [if_neg h2] at herr
        by_cases h3 : cmd = "add"
        · rw [if_pos h3] at herr
          cases herr
        · rw [if_neg h3] at herr
          by_cases h4 : cmd = "change"
          · exact h4
          · rw [if_neg h4] at herr
            by_cases h5 : cmd = "phone"
            · rw [if_pos h5] at herr
              cases herr
            · rw [if_neg h5] at herr
              by_cases h6 : cmd = "all"
              · rw [if_pos h6] at herr
                cases herr
              · rw [if_neg h6] at herr
                by_cases h7 : cmd = "add-birthday"
                · rw [if_pos h7] at herr
                  cases herr
                · rw [if_neg h7] at herr
                  by_cases h8 : cmd = "show-birthday"
                  · rw [if_pos h8] at herr
                    cases herr
                  · rw [if_neg h8] at herr
                    by_cases h9 : cmd = "birthdays"
                    · rw [if_pos h9] at herr
                      cases herr
                    · rw [if_neg h9] at herr
                      cases herr

/-- C5 witness: the characterization applied at a concrete crashing line. -/
theorem step_error_only_change_witness :
    splitWords "change Alice 0000000000 1111111111" = [] ∨
      (splitWords "change Alice 0000000000 1111111111").head? = some "change" :=
  step_error_only_change ⟨2024, 5, 10, 0⟩
    [("Alice", ⟨"Alice", [⟨"1234567890", rfl⟩], none⟩)]
    "change Alice 0000000000 1111111111" "Old number not found." rfl

/-! ## C8: the add command -/

/-- C8 counterexample: with an existing record and an invalid phone string,
the `add` command neither appends nor answers "Contact updated.": the
`ValueError` from `Phone.__init__` is converted by `input_error` into an
"An error occurred: ..." reply and the record keeps its phone list. -/
theorem add_contact_invalid_cx :
    add_contact ["Alice", "abc"] [("Alice", ⟨"Alice", [⟨"1234567890", rfl⟩], none⟩)] =
      ([("Alice", ⟨"Alice", [⟨"1234567890", rfl⟩], none⟩)],
        "An error occurred: Phone number must be 10 digits.") ∧
    "An error occurred: Phone number must be 10 digits." ≠ "Contact updated." :=
  ⟨rfl, by decide⟩

/-- C8 (amended): given two arguments (name, phone): if no record exists
for the name, a fresh record (containing no phone) is inserted at the end
and the reply is "Contact added."; if a record exists and the phone string
is a valid phone, it is appended (the phone list grows by exactly one) and
the reply is "Contact updated."; the two status strings are distinct. If a
record exists and the phone is invalid, the reply is an "An error
occurred: ..." string and the book is unchanged. -/
theorem add_contact_behavior (book : AddressBook) (name phone : String)
    (rest : List String) :
    (lookupBook book name = none →
      add_contact (name :: phone :: rest) book =
        (book ++ [(name, ⟨name, [], none⟩)], "Contact added.")) ∧
    (∀ r : Record, lookupBook book name = some r →
      (∀ h : isValidPhone phone = true,
        add_contact (name :: phone :: rest) book =
          (updateBook book name { r with phones := r.phones ++ [⟨phone, h⟩] },
            "Contact updated.") ∧
        (r.phones ++ [(⟨phone, h⟩ : Phone)]).length = r.phones.length + 1) ∧
      (isValidPhone phone = false →
        add_contact (name :: phone :: rest) book =
          (book, "An error occurred: Phone number must be 10 digits."))) ∧
    ("Contact added." : String) ≠ "Contact updated." := by
  refine ⟨?_, ?_, by decide⟩
  · intro hnone
    unfold add_contact add_contact_inner
    simp only [hnone]
  · intro r hsome
    constructor
    · intro h
      unfold add_contact add_contact_inner Record.add_phone
      simp only [hsome, mkPhone, h, reduceDIte]
      exact ⟨by trivial, by simp⟩
    · intro h
      unfold add_contact add_contact_inner Record.add_phone
      simp only [hsome, mkPhone, h, Bool.false_eq_true, reduceDIte]
      rfl

/-- C8 witness: the amended theorem applied at a fresh name, at an existing
name with a valid phone, and at an existing name with an invalid phone. -/
theorem add_contact_behavior_witness :
    add_contact ["Dan", "5551234567"] [] = ([("Dan", ⟨"Dan", [], none⟩)], "Contact added.") ∧
    add_contact ["Dan", "5551234567"] [("Dan", ⟨"Dan", [], none⟩)] =
      ([("Dan", ⟨"Dan", [⟨"5551234567", rfl⟩], none⟩)], "Contact updated.") ∧
    add_contact ["Dan", "abc"] [("Dan", ⟨"Dan", [], none⟩)] =
      ([("Dan", ⟨"Dan", [], none⟩)], "An error occurred: Phone number must be 10 digits.") := by
  refine ⟨(add_contact_behavior [] "Dan" "5551234567" []).1 rfl, ?_, ?_⟩
  · have h := (((add_contact_behavior [("Dan", ⟨"Dan", [], none⟩)] "Dan" "5551234567" []).2.1
      ⟨"Dan", [], none⟩ rfl).1 rfl).1
    rw [h]
    rfl
  · exact ((add_contact_behavior [("Dan", ⟨"Dan", [], none⟩)] "Dan" "abc" []).2.1
      ⟨"Dan", [], none⟩ rfl).2 rfl
